import Mathlib

/-!
Shallow embedding of `cmd/go-cacher/cacher.go` (backend resolution and
composition for the go-tool-cache helper), together with proofs about the
configuration-resolution logic: credential resolution from environment
signals, custom S3 endpoint resolution, remote-backend selection and the
final cache-facade composition.

Conventions of the embedding:
* Go's `os.Getenv` returns `""` for an unset variable, so an environment is a
  total function `String → String` and "signal absent" is "value `= ""`",
  exactly as the Go code tests.
* External collaborators (the AWS SDK loader `config.LoadDefaultConfig`,
  Go's `net/url`, `os.UserCacheDir`) are modelled: the SDK loader by a
  failure oracle plus its documented successful result, `net/url` by an
  executable parser faithful to `url.Parse` on the inputs considered here
  (control-character rejection, fragment/scheme/query/authority splitting;
  userinfo, percent-unescaping and IPv6-host validation are not modelled),
  and `os.UserCacheDir` by an `Except` parameter.
* `log.Fatal` terminates the process; it is embedded as an `Except.error`
  carrying the site at which the termination happened, so that "which
  component terminated the process" is observable.
* The global `-verbose` flag is threaded as an explicit parameter.
-/

namespace GoCacher

-- Componentwise decidable equality for `Except`, for evaluating the
-- embedding at concrete inputs.
deriving instance DecidableEq for Except

/-! ## Constants from the source -/

def defaultCacheKey : String := "v1"

def envVarDiskCacheDir : String := "GOCACHE_DISK_DIR"
def envVarS3Endpoint : String := "GOCACHE_S3_ENDPOINT"
def envVarS3CacheRegion : String := "GOCACHE_AWS_REGION"
def envVarS3AwsAccessKey : String := "GOCACHE_AWS_ACCESS_KEY"
def envVarS3AwsSecretAccessKey : String := "GOCACHE_AWS_SECRET_KEY"
def envVarS3AwsCredsProfile : String := "GOCACHE_AWS_CREDS_PROFILE"
def envVarS3BucketName : String := "GOCACHE_S3_BUCKET"
def envVarS3CacheKey : String := "GOCACHE_CACHE_KEY"
def envVarHttpCacheServerBase : String := "GOCACHE_HTTP_SERVER_BASE"

/-! ## Environment accessor -/

/-- The `Env` interface of the source: `Get(key string) string`.
`osEnv.Get` is `os.Getenv`, which yields `""` for unset variables, so an
environment is a total map and absence is the empty string. -/
def Env : Type := String → String

/-- Pointwise update of an environment, used to state independence of the
result from one signal. -/
def setEnv (env : Env) (key value : String) : Env :=
  fun k => if k = key then value else env k

/-! ## AWS configuration (model of the external SDK types) -/

/-- The credential shape selected by `getAwsConfigFromEnv`: either a
`credentials.StaticCredentialsProvider` with an explicit key pair, or a
shared-config profile name (`config.WithSharedConfigProfile`). -/
inductive CredSpec : Type
  | staticKeyPair (accessKey secretAccessKey : String)
  | namedProfile (profile : String)
deriving DecidableEq

/-- The observable part of `aws.Config` produced by the code: the region
(`config.WithRegion`), the credential choice, and the optional
`BaseEndpoint` (a `*string` in Go, `none` when never assigned). -/
structure AwsConfig : Type where
  region : String
  credentials : CredSpec
  baseEndpoint : Option String
deriving DecidableEq

/-- Failure oracle for the external `config.LoadDefaultConfig`: `some e`
means the SDK load fails with error `e` for that region/credential request,
`none` means it succeeds. -/
def SdkFail : Type := String → CredSpec → Option String

/-- Model of `config.LoadDefaultConfig(ctx, WithRegion(r), ...creds...)`:
fails per the oracle, otherwise yields the config carrying exactly the
requested region and credentials, with no base endpoint assigned. -/
def loadDefaultConfig (fail : SdkFail) (region : String) (creds : CredSpec) :
    Except String AwsConfig :=
  match fail region creds with
  | some e => .error e
  | none => .ok { region := region, credentials := creds, baseEndpoint := none }

/-- Embedding of `getAwsConfigFromEnv` (cacher.go lines 62–97), line by line:
empty region short-circuits to `(nil, nil)`; a complete static key pair wins
and gets the endpoint override attached when non-empty; otherwise a
non-empty profile is used; otherwise `(nil, nil)`. -/
def getAwsConfigFromEnv (fail : SdkFail) (env : Env) :
    Except String (Option AwsConfig) :=
  let awsRegion := env envVarS3CacheRegion
  if awsRegion = "" then
    .ok none
  else
    let accessKey := env envVarS3AwsAccessKey
    let secretAccessKey := env envVarS3AwsSecretAccessKey
    if accessKey ≠ "" ∧ secretAccessKey ≠ "" then
      match loadDefaultConfig fail awsRegion (.staticKeyPair accessKey secretAccessKey) with
      | .error e => .error e
      | .ok cfg =>
        let endpoint := env envVarS3Endpoint
        if endpoint ≠ "" then
          .ok (some { cfg with baseEndpoint := some endpoint })
        else
          .ok (some cfg)
    else
      let credsProfile := env envVarS3AwsCredsProfile
      if credsProfile ≠ "" then
        match loadDefaultConfig fail awsRegion (.namedProfile credsProfile) with
        | .error e => .error e
        | .ok cfg => .ok (some cfg)
      else
        .ok none

/-! ## Model of Go `net/url` (external standard library)

Only the behavior exercised by `resolver.ResolveEndpoint` is modelled:
`url.Parse` (control-character rejection, `#` fragment split, scheme
extraction, `?` query split, `//authority` split), `url.Values`
(`Query`/`Set`/`Encode` with Go's `QueryEscape` for ASCII) and
`URL.String`.  Userinfo, percent-unescaping, opaque URLs, `ForceQuery` and
IPv6-host validation are outside the inputs considered and are not
modelled. -/

/-- An ASCII control byte, exactly the test of Go's
`stringContainsCTLByte` (`c < ' ' || c == 0x7f`); `url.Parse` rejects any
URL containing one. -/
def isCTL (c : Char) : Bool := c.toNat < 0x20 || c.toNat == 0x7f

/-- The observable fields of Go's `url.URL` used here. -/
structure URL : Type where
  scheme : String
  host : String
  path : String
  rawQuery : String
  fragment : String
deriving DecidableEq

/-- Go's `split(s, c, true)`: the part before the first occurrence of `c`,
and (when `c` occurs) the part after it, the separator dropped. -/
def splitAtFirst (c : Char) : List Char → List Char × Option (List Char)
  | [] => ([], none)
  | x :: xs =>
    if x = c then ([], some xs)
    else
      let r := splitAtFirst c xs
      (x :: r.1, r.2)

/-- Go's `split(s, c, false)`: the separator, when present, stays at the
head of the second part. -/
def splitBeforeFirst (c : Char) : List Char → List Char × List Char
  | [] => ([], [])
  | x :: xs =>
    if x = c then ([], x :: xs)
    else
      let r := splitBeforeFirst c xs
      (x :: r.1, r.2)

def isAlphaChar (c : Char) : Bool :=
  ('a' ≤ c && c ≤ 'z') || ('A' ≤ c && c ≤ 'Z')

def isDigitChar (c : Char) : Bool := '0' ≤ c && c ≤ '9'

/-- Loop of Go's `getscheme`: `acc` holds the scheme characters read so far
(empty iff we are at position 0), `orig` the whole input for the
"no scheme" outcomes. -/
def getSchemeAux (orig acc : List Char) : List Char → Except String (List Char × List Char)
  | [] => .ok ([], orig)
  | c :: rest =>
    if isAlphaChar c then getSchemeAux orig (acc ++ [c]) rest
    else if isDigitChar c || c = '+' || c = '-' || c = '.' then
      if acc = [] then .ok ([], orig) else getSchemeAux orig (acc ++ [c]) rest
    else if c = ':' then
      if acc = [] then .error "missing protocol scheme"
      else .ok (acc, rest)
    else .ok ([], orig)

/-- Go's `getscheme`: splits a leading `scheme:` off the URL when present. -/
def getScheme (s : List Char) : Except String (List Char × List Char) :=
  getSchemeAux s [] s

/-- Core of `url.Parse` on the character list of the raw URL. -/
def urlParseCore (s : List Char) : Except String URL :=
  if s.any isCTL then
    .error "net/url: invalid control character in URL"
  else
    let fragSplit := splitAtFirst '#' s
    match getScheme fragSplit.1 with
    | .error e => .error e
    | .ok schemeRest =>
      let querySplit := splitAtFirst '?' schemeRest.2
      let hostPath :=
        if querySplit.1.take 2 = ['/', '/'] then
          splitBeforeFirst '/' (querySplit.1.drop 2)
        else
          ([], querySplit.1)
      .ok { scheme := ⟨(schemeRest.1.map Char.toLower)⟩
            host := ⟨hostPath.1⟩
            path := ⟨hostPath.2⟩
            rawQuery := ⟨(querySplit.2.getD [])⟩
            fragment := ⟨(fragSplit.2.getD [])⟩ }

/-- Model of `url.Parse`. -/
def urlParse (s : String) : Except String URL := urlParseCore s.data

/-- Go's `URL.String()` for the fields modelled here. -/
def urlString (u : URL) : String :=
  (if u.scheme = "" then "" else u.scheme ++ ":")
    ++ (if (u.scheme ≠ "" ∨ u.host ≠ "") ∧ (u.host ≠ "" ∨ u.path ≠ "") then "//" ++ u.host else "")
    ++ u.path
    ++ (if u.rawQuery = "" then "" else "?" ++ u.rawQuery)
    ++ (if u.fragment = "" then "" else "#" ++ u.fragment)

/-- Go's `url.QueryEscape` on an ASCII character: unreserved characters
kept, space becomes `+`, everything else percent-encoded. -/
def queryEscapeChar (c : Char) : List Char :=
  if c.isAlphanum || c = '-' || c = '_' || c = '.' || c = '~' then [c]
  else if c = ' ' then ['+']
  else
    let hexDigit : Nat → Char := fun n =>
      if n < 10 then Char.ofNat ('0'.toNat + n) else Char.ofNat ('A'.toNat + n - 10)
    ['%', hexDigit (c.toNat / 16 % 16), hexDigit (c.toNat % 16)]

def queryEscape (s : String) : String := ⟨s.data.flatMap queryEscapeChar⟩

/-- `url.Values`, ordered as an association list of key/value pairs. -/
def Values : Type := List (String × String)

/-- Splitting a raw query on `&` (Go's `ParseQuery` component loop). -/
def splitAmp : List Char → List Char × List (List Char)
  | [] => ([], [])
  | x :: xs =>
    if x = '&' then
      let r := splitAmp xs
      ([], r.1 :: r.2)
    else
      let r := splitAmp xs
      (x :: r.1, r.2)

/-- Model of `url.Values` parsing as done by `URL.Query()`: components split
on `&`, empty components skipped, each component split at its first `=`
(percent-unescaping is not modelled; faithful for escape-free queries). -/
def parseQuery (s : String) : Values :=
  let comps := let r := splitAmp s.data; r.1 :: r.2
  comps.filterMap fun comp =>
    if comp = [] then none
    else
      let kv := splitAtFirst '=' comp
      some (⟨kv.1⟩, ⟨kv.2.getD []⟩)

/-- `Values.Set(key, value)`: replaces any existing values for the key. -/
def valuesSet (q : Values) (key value : String) : Values :=
  (q.filter fun p => p.1 ≠ key) ++ [(key, value)]

/-- Insertion keeping keys sorted (equal keys keep their relative order),
realizing the sorted-key iteration of `Values.Encode`. -/
def insertByKey (p : String × String) : Values → Values
  | [] => [p]
  | q :: qs =>
    if compare p.1 q.1 = Ordering.lt then p :: q :: qs
    else q :: insertByKey p qs

def sortByKey : Values → Values
  | [] => []
  | p :: ps => insertByKey p (sortByKey ps)

/-- `Values.Encode()`: keys sorted, each pair query-escaped and joined
with `&`. -/
def valuesEncode (q : Values) : String :=
  String.intercalate "&"
    ((sortByKey q).map fun p => queryEscape p.1 ++ "=" ++ queryEscape p.2)

/-! ## resolver.ResolveEndpoint -/

/-- The fields of `s3.EndpointParameters` read by the resolver; all three
are `*string` in Go, so `none` is a nil pointer. -/
structure EndpointParameters : Type where
  endpoint : Option String
  bucket : Option String
  region : Option String
deriving DecidableEq

/-- `smithyendpoints.Endpoint`: the resolved URI. -/
structure SmithyEndpoint : Type where
  uri : URL
deriving DecidableEq

/-- Embedding of `(*resolver).ResolveEndpoint` (cacher.go lines 103–120).
The Go body dereferences `params.Endpoint` and `params.Bucket`
unconditionally before doing anything else; the outer `Option` records that
fault: `none` is the nil-pointer panic, reached exactly when either pointer
is nil.  Otherwise: `fmt.Sprintf("%s/%s", *params.Endpoint, *params.Bucket)`
is parsed, and when `params.Region` is non-nil the query gets
`region=*params.Region` set and re-encoded. -/
def resolveEndpoint (params : EndpointParameters) :
    Option (Except String SmithyEndpoint) :=
  match params.endpoint, params.bucket with
  | some endpoint, some bucket =>
    let url := endpoint ++ "/" ++ bucket
    some (match urlParse url with
      | .error e => .error e
      | .ok u =>
        match params.region with
        | some r =>
          let q := parseQuery u.rawQuery
          let q := valuesSet q "region" r
          .ok { uri := { u with rawQuery := valuesEncode q } }
        | none => .ok { uri := u })
  | _, _ => none

/-! ## Cache backends, remote selection and composition -/

/-- The S3 client built by `s3.NewFromConfig(*awsConfig,
s3.WithEndpointResolverV2(&resolver{}))`: it carries the config (whose
`BaseEndpoint` may or may not be set) and records whether the custom
`resolver` of this file was installed as the client's EndpointResolverV2. -/
structure S3Client : Type where
  config : AwsConfig
  customEndpointResolverV2 : Bool
deriving DecidableEq

/-- `s3.NewFromConfig` as called at cacher.go line 137: the custom resolver
is always installed. -/
def s3NewFromConfig (cfg : AwsConfig) : S3Client :=
  { config := cfg, customEndpointResolverV2 := true }

/-- The data of `cachers.NewS3Cache(s3Client, bucket, cacheKey, *verbose)`. -/
structure S3Cache : Type where
  client : S3Client
  bucket : String
  cacheKey : String
  verbose : Bool
deriving DecidableEq

/-- `cachers.RemoteCache` values constructed by this file: an S3 cache or
an HTTP cache (`cachers.NewHttpCache(serverBase, *verbose)`). -/
inductive RemoteCache : Type
  | s3 (cache : S3Cache)
  | http (serverBase : String) (verbose : Bool)
deriving DecidableEq

/-- `cachers.LocalCache` values constructed by `getCache`: the disk cache
(`cachers.NewSimpleDiskCache(verbose, dir)`), the state-logging wrapper
(`cachers.NewLocalCacheStates(local)`), or the two-tier combination
(`cachers.NewCombinedCache(local, remote, verbose)`). -/
inductive LocalCache : Type
  | simpleDiskCache (verbose : Bool) (dir : String)
  | localCacheStates (inner : LocalCache)
  | combinedCache (localCache : LocalCache) (remote : RemoteCache) (verbose : Bool)
deriving DecidableEq

/-- Embedding of `maybeS3Cache` (cacher.go lines 122–140): propagate a
credential-resolution error; need a non-empty bucket and a non-nil aws
config, else inactive; default the cache key to `defaultCacheKey`; build
the client (custom endpoint resolver always installed) and the S3 cache. -/
def maybeS3Cache (fail : SdkFail) (verbose : Bool) (env : Env) :
    Except String (Option RemoteCache) :=
  match getAwsConfigFromEnv fail env with
  | .error e => .error e
  | .ok awsConfig =>
    let bucket := env envVarS3BucketName
    if bucket = "" then .ok none
    else
      match awsConfig with
      | none => .ok none
      | some cfg =>
        let cacheKey := env envVarS3CacheKey
        let cacheKey := if cacheKey = "" then defaultCacheKey else cacheKey
        let s3Client := s3NewFromConfig cfg
        .ok (some (.s3 { client := s3Client, bucket := bucket,
                         cacheKey := cacheKey, verbose := verbose }))

/-- Embedding of `maybeHttpCache` (cacher.go lines 166–172). -/
def maybeHttpCache (verbose : Bool) (env : Env) :
    Except String (Option RemoteCache) :=
  let serverBase := env envVarHttpCacheServerBase
  if serverBase = "" then .ok none
  else .ok (some (.http serverBase verbose))

/-- Where a `log.Fatal` happened: inside `getDir`, inside `getCache`, or in
`main`'s top-level handler. -/
inductive FatalSite : Type
  | getDir
  | getCache
  | main
deriving DecidableEq

/-- A process termination via `log.Fatal`, tagged with the site that
executed it. -/
structure Fatal : Type where
  site : FatalSite
  msg : String
deriving DecidableEq

/-- Embedding of `getDir` (cacher.go lines 174–185).  `os.UserCacheDir` is
external and passed as an `Except`; its failure hits the `log.Fatal` inside
`getDir`.  `filepath.Join(d, "go-cacher")` is modelled as
`d ++ "/go-cacher"` (faithful for already-clean directories). -/
def getDir (userCacheDir : Except String String) (env : Env) :
    Except Fatal String :=
  let dir := env envVarDiskCacheDir
  if dir = "" then
    match userCacheDir with
    | .error e => .error { site := .getDir, msg := e }
    | .ok d => .ok (d ++ "/go-cacher")
  else .ok dir

/-- Embedding of `getCache` (cacher.go lines 142–164): build the local disk
cache; try S3 then HTTP (each error hits a `log.Fatal` inside `getCache`);
combine with the remote when one is active, else wrap with the state logger
when verbose, else return the local cache unchanged. -/
def getCache (fail : SdkFail) (userCacheDir : Except String String)
    (env : Env) (verbose : Bool) : Except Fatal LocalCache :=
  match getDir userCacheDir env with
  | .error f => .error f
  | .ok dir =>
    let localCache : LocalCache := .simpleDiskCache verbose dir
    match maybeS3Cache fail verbose env with
    | .error e => .error { site := .getCache, msg := e }
    | .ok remoteS3 =>
      match
        (match remoteS3 with
         | none => maybeHttpCache verbose env
         | some r => .ok (some r)) with
      | .error e => .error { site := .getCache, msg := e }
      | .ok none =>
        if verbose then .ok (.localCacheStates localCache)
        else .ok localCache
      | .ok (some remote) => .ok (.combinedCache localCache remote verbose)

/-! ## Concrete inputs used by witnesses -/

/-- SDK oracle that always succeeds. -/
def sdkOk : SdkFail := fun _ _ => none

/-- SDK oracle that always fails. -/
def sdkBoom : SdkFail := fun _ _ => some "boom"

/-- Environment with every cloud signal set except the region. -/
def envNoRegion : Env := fun k =>
  if k = envVarS3CacheRegion then "" else "x"

/-- Environment with region, both keys, a profile, an endpoint override, a
bucket and an HTTP server base all set. -/
def envFull : Env := fun k =>
  if k = envVarS3CacheRegion then "r"
  else if k = envVarS3AwsAccessKey then "a"
  else if k = envVarS3AwsSecretAccessKey then "s"
  else if k = envVarS3AwsCredsProfile then "p"
  else if k = envVarS3Endpoint then "http://e:9000"
  else if k = envVarS3BucketName then "b"
  else if k = envVarHttpCacheServerBase then "http://h"
  else ""

/-! ## Helper lemmas -/

/-- The static-key-pair branch of `getAwsConfigFromEnv`: with region and
both keys non-empty and a successful SDK load, the result is the static
config with that region, the endpoint attached exactly when non-empty. -/
theorem getAwsConfigFromEnv_static (fail : SdkFail) (env : Env)
    (hr : env envVarS3CacheRegion ≠ "")
    (ha : env envVarS3AwsAccessKey ≠ "")
    (hs : env envVarS3AwsSecretAccessKey ≠ "")
    (hf : fail (env envVarS3CacheRegion)
        (.staticKeyPair (env envVarS3AwsAccessKey) (env envVarS3AwsSecretAccessKey)) = none) :
    getAwsConfigFromEnv fail env = .ok (some
      { region := env envVarS3CacheRegion
        credentials := .staticKeyPair (env envVarS3AwsAccessKey) (env envVarS3AwsSecretAccessKey)
        baseEndpoint := if env envVarS3Endpoint = "" then none else some (env envVarS3Endpoint) }) := by
  unfold getAwsConfigFromEnv loadDefaultConfig
  rw [if_neg hr, if_pos ⟨ha, hs⟩, hf]
  by_cases he : env envVarS3Endpoint = "" <;> simp [he]

/-! ## Claims -/

/-- C1: if the region signal is absent (the empty string, as Go's
`os.Getenv` reports an unset variable), `getAwsConfigFromEnv` returns
`(nil, nil)` — no config and no error — whatever the other signals and
whatever the SDK oracle would have done. -/
theorem getAwsConfigFromEnv_region_absent (fail : SdkFail) (env : Env)
    (hr : env envVarS3CacheRegion = "") :
    getAwsConfigFromEnv fail env = .ok none := by
  unfold getAwsConfigFromEnv
  rw [if_pos hr]

/-- C1 witness: the region-absent environment with all other signals set,
under an SDK oracle that would fail every load. -/
theorem getAwsConfigFromEnv_region_absent_witness :
    getAwsConfigFromEnv sdkBoom envNoRegion = .ok none :=
  getAwsConfigFromEnv_region_absent sdkBoom envNoRegion (by decide)

/-- C2: with region and both key signals present, `getAwsConfigFromEnv`
yields the static-key-pair config with that region (the profile signal is
never consulted — the statement quantifies over every environment,
including those with a profile set), and the endpoint override is attached
as the base endpoint exactly when present. -/
theorem getAwsConfigFromEnv_static_pair_wins (fail : SdkFail) (env : Env)
    (hr : env envVarS3CacheRegion ≠ "")
    (ha : env envVarS3AwsAccessKey ≠ "")
    (hs : env envVarS3AwsSecretAccessKey ≠ "")
    (hf : fail (env envVarS3CacheRegion)
        (.staticKeyPair (env envVarS3AwsAccessKey) (env envVarS3AwsSecretAccessKey)) = none) :
    getAwsConfigFromEnv fail env = .ok (some
      { region := env envVarS3CacheRegion
        credentials := .staticKeyPair (env envVarS3AwsAccessKey) (env envVarS3AwsSecretAccessKey)
        baseEndpoint := if env envVarS3Endpoint = "" then none else some (env envVarS3Endpoint) }) :=
  getAwsConfigFromEnv_static fail env hr ha hs hf

/-- C2 witness: an environment in which a profile signal ("p") is present
alongside the static pair still yields the static-key-pair config, with the
endpoint override attached. -/
theorem getAwsConfigFromEnv_static_pair_wins_witness :
    getAwsConfigFromEnv sdkOk envFull = .ok (some
      { region := "r"
        credentials := .staticKeyPair "a" "s"
        baseEndpoint := some "http://e:9000" }) := by
  have h := getAwsConfigFromEnv_static_pair_wins sdkOk envFull
    (by decide) (by decide) (by decide) rfl
  simpa using h

/-- Inversion for `getAwsConfigFromEnv`: any produced config has its base
endpoint unset whenever the endpoint-override signal is empty (both the
static and the profile branch leave `BaseEndpoint` nil in that case). -/
theorem getAwsConfigFromEnv_baseEndpoint_none (fail : SdkFail) (env : Env)
    (cfg : AwsConfig)
    (h : getAwsConfigFromEnv fail env = .ok (some cfg))
    (he : env envVarS3Endpoint = "") :
    cfg.baseEndpoint = none := by
  simp only [getAwsConfigFromEnv, loadDefaultConfig] at h
  split at h
  · simp_all
  · split at h
    · cases hf : fail (env envVarS3CacheRegion)
          (.staticKeyPair (env envVarS3AwsAccessKey) (env envVarS3AwsSecretAccessKey)) with
      | none =>
        rw [hf] at h
        simp [he] at h
        subst h
        rfl
      | some e =>
        rw [hf] at h
        simp at h
    · split at h
      · cases hf : fail (env envVarS3CacheRegion) (.namedProfile (env envVarS3AwsCredsProfile)) with
        | none =>
          rw [hf] at h
          simp at h
          subst h
          rfl
        | some e =>
          rw [hf] at h
          simp at h
      · simp_all

/-- Inversion for `maybeS3Cache`: every S3 cache it returns carries the
bucket signal, the (defaulted) cache key, the verbose flag, a client with
the custom endpoint resolver installed, and the config produced by
`getAwsConfigFromEnv`. -/
theorem maybeS3Cache_s3_fields (fail : SdkFail) (v : Bool) (env : Env)
    (c : S3Cache)
    (h : maybeS3Cache fail v env = .ok (some (.s3 c))) :
    c.bucket = env envVarS3BucketName ∧
    c.cacheKey = (if env envVarS3CacheKey = "" then defaultCacheKey else env envVarS3CacheKey) ∧
    c.verbose = v ∧
    c.client.customEndpointResolverV2 = true ∧
    ∃ cfg, getAwsConfigFromEnv fail env = .ok (some cfg) ∧ c.client.config = cfg := by
  simp only [maybeS3Cache] at h
  split at h
  · simp at h
  · rename_i awsConfig heq
    split at h
    · simp at h
    · split at h
      · simp at h
      · rename_i cfg
        simp [s3NewFromConfig] at h
        subst h
        exact ⟨rfl, rfl, rfl, rfl, cfg, heq, rfl⟩

/-- C8: whatever credential path activated it, the S3 cache built by
`maybeS3Cache` uses the cache-key-prefix signal as its cache key when that
signal is set, and the fixed default "v1" when it is unset. -/
theorem maybeS3Cache_cacheKey_default (fail : SdkFail) (v : Bool) (env : Env)
    (c : S3Cache)
    (h : maybeS3Cache fail v env = .ok (some (.s3 c))) :
    c.cacheKey = if env envVarS3CacheKey = "" then "v1" else env envVarS3CacheKey :=
  (maybeS3Cache_s3_fields fail v env c h).2.1

/-- The S3 cache `maybeS3Cache` builds from `envFull` under `sdkOk`. -/
def s3CacheFull : S3Cache :=
  { client :=
      { config :=
          { region := "r"
            credentials := .staticKeyPair "a" "s"
            baseEndpoint := some "http://e:9000" }
        customEndpointResolverV2 := true }
    bucket := "b"
    cacheKey := "v1"
    verbose := false }

/-- C8 witness: `envFull` leaves the cache-key signal unset, and the built
cache's key is the default "v1". -/
theorem maybeS3Cache_cacheKey_default_witness :
    s3CacheFull.cacheKey = if envFull envVarS3CacheKey = "" then "v1" else envFull envVarS3CacheKey :=
  maybeS3Cache_cacheKey_default sdkOk false envFull s3CacheFull (by decide)

/-- C10: `ResolveEndpoint` faults (nil-pointer dereference, the outer
`none`) exactly when the endpoint or the bucket parameter is nil; and yet
every S3 cache activation installs the custom resolver on the client, with
the client's base endpoint left unset whenever no endpoint-override signal
was supplied. -/
theorem resolveEndpoint_partial_yet_always_installed :
    (∀ params : EndpointParameters,
      resolveEndpoint params = none ↔ (params.endpoint = none ∨ params.bucket = none)) ∧
    (∀ (fail : SdkFail) (v : Bool) (env : Env) (c : S3Cache),
      maybeS3Cache fail v env = .ok (some (.s3 c)) →
      c.client.customEndpointResolverV2 = true ∧
      (env envVarS3Endpoint = "" → c.client.config.baseEndpoint = none)) := by
  constructor
  · intro params
    obtain ⟨ep, bu, rg⟩ := params
    cases ep <;> cases bu <;> simp [resolveEndpoint]
  · intro fail v env c h
    obtain ⟨-, -, -, hres, cfg, hcfg, hc⟩ := maybeS3Cache_s3_fields fail v env c h
    refine ⟨hres, fun he => ?_⟩
    rw [hc]
    exact getAwsConfigFromEnv_baseEndpoint_none fail env cfg hcfg he

/-- When the separator does not occur, `splitAtFirst` returns the whole
string and no second part. -/
theorem splitAtFirst_of_not_mem (c : Char) (s : List Char) (h : c ∉ s) :
    splitAtFirst c s = (s, none) := by
  induction s with
  | nil => rfl
  | cons x xs ih =>
    have hxc : ¬x = c := fun hxc => h (by rw [← hxc]; exact List.mem_cons_self x xs)
    have hxs : c ∉ xs := fun hm => h (List.mem_cons_of_mem _ hm)
    simp [splitAtFirst, hxc, ih hxs]

/-- Characters of the first part of `splitAtFirst` come from the input. -/
theorem mem_splitAtFirst_fst (c : Char) (s : List Char) :
    ∀ x ∈ (splitAtFirst c s).1, x ∈ s := by
  induction s with
  | nil => intro x hx; simp [splitAtFirst] at hx
  | cons y ys ih =>
    intro x hx
    by_cases hyc : y = c
    · simp [splitAtFirst, hyc] at hx
    · simp only [splitAtFirst, if_neg hyc] at hx
      rcases List.mem_cons.mp hx with h1 | h2
      · exact h1 ▸ List.mem_cons_self y ys
      · exact List.mem_cons_of_mem _ (ih x h2)

/-- Characters of the remainder returned by `getSchemeAux` come from the
original string, provided the current suffix does. -/
theorem getSchemeAux_rest_subset (orig : List Char) :
    ∀ (l acc sc rest : List Char), (∀ x ∈ l, x ∈ orig) →
      getSchemeAux orig acc l = .ok (sc, rest) → ∀ x ∈ rest, x ∈ orig := by
  intro l
  induction l with
  | nil =>
    intro acc sc rest _ h x hx
    simp only [getSchemeAux] at h
    cases h
    exact hx
  | cons c cs ih =>
    intro acc sc rest hsub h x hx
    have hcs : ∀ y ∈ cs, y ∈ orig := fun y hy => hsub y (List.mem_cons_of_mem _ hy)
    simp only [getSchemeAux] at h
    by_cases h1 : isAlphaChar c = true
    · rw [if_pos h1] at h
      exact ih _ _ _ hcs h x hx
    · rw [if_neg h1] at h
      by_cases h2 : (isDigitChar c || c = '+' || c = '-' || c = '.') = true
      · rw [if_pos h2] at h
        by_cases h3 : acc = []
        · rw [if_pos h3] at h
          cases h
          exact hx
        · rw [if_neg h3] at h
          exact ih _ _ _ hcs h x hx
      · rw [if_neg h2] at h
        by_cases h4 : c = ':'
        · rw [if_pos h4] at h
          by_cases h5 : acc = []
          · rw [if_pos h5] at h
            cases h
          · rw [if_neg h5] at h
            cases h
            exact hsub x (List.mem_cons_of_mem _ hx)
        · rw [if_neg h4] at h
          cases h
          exact hx

/-- When the raw URL contains no `?`, whatever `url.Parse` accepts has an
empty raw query. -/
theorem urlParseCore_rawQuery_of_not_mem (s : List Char) (h : '?' ∉ s)
    (u : URL) (hp : urlParseCore s = .ok u) : u.rawQuery = "" := by
  simp only [urlParseCore] at hp
  by_cases hctl : s.any isCTL = true
  · rw [if_pos hctl] at hp
    cases hp
  · rw [if_neg hctl] at hp
    have hfrag : '?' ∉ (splitAtFirst '#' s).1 :=
      fun hm => h (mem_splitAtFirst_fst '#' s _ hm)
    cases hgs : getScheme (splitAtFirst '#' s).1 with
    | error e =>
      rw [hgs] at hp
      cases hp
    | ok p =>
      rw [hgs] at hp
      obtain ⟨sc, rest⟩ := p
      have hrest : '?' ∉ rest := by
        intro hm
        exact hfrag (getSchemeAux_rest_subset (splitAtFirst '#' s).1 _ [] sc rest
          (fun x hx => hx) hgs '?' hm)
      simp only [splitAtFirst_of_not_mem '?' rest hrest, Option.getD_none] at hp
      cases hp
      rfl

/-- C3 counterexample to the universal no-query part: a base endpoint
containing `?` yields, with no region supplied, a resolved URL whose query
string is `a/b`, not absent. -/
theorem resolveEndpoint_no_region_query_counterexample :
    resolveEndpoint { endpoint := some "http://x?a", bucket := some "b", region := none }
      = some (.ok { uri :=
          { scheme := "http", host := "x", path := "", rawQuery := "a/b", fragment := "" } })
    ∧ ("a/b" : String) ≠ "" :=
  ⟨by decide, by decide⟩

/-- C3 (amended): the concrete example resolves to exactly
`http://x:9000/mybucket?region=us-east-1`; and with no region supplied the
resolver adds no query component, so for every base endpoint and bucket
containing no `?` the returned URL has no query string at all. -/
theorem resolveEndpoint_example_and_no_region :
    Option.map (Except.map fun e => urlString e.uri)
      (resolveEndpoint { endpoint := some "http://x:9000", bucket := some "mybucket",
                         region := some "us-east-1" })
      = some (.ok "http://x:9000/mybucket?region=us-east-1")
    ∧ ∀ ep bu : String, '?' ∉ ep.data → '?' ∉ bu.data →
        ∀ e, resolveEndpoint { endpoint := some ep, bucket := some bu, region := none }
          = some (.ok e) → e.uri.rawQuery = "" := by
  constructor
  · decide
  · intro ep bu h1 h2 e h
    have hnq : '?' ∉ (ep ++ "/" ++ bu).data := by
      rw [String.data_append, String.data_append]
      intro hm
      rcases List.mem_append.mp hm with hm1 | hm2
      · rcases List.mem_append.mp hm1 with hm3 | hm4
        · exact h1 hm3
        · simp at hm4
      · exact h2 hm2
    simp only [resolveEndpoint] at h
    cases hu : urlParse (ep ++ "/" ++ bu) with
    | error er =>
      rw [hu] at h
      simp at h
    | ok u =>
      rw [hu] at h
      simp at h
      rw [← h]
      exact urlParseCore_rawQuery_of_not_mem (ep ++ "/" ++ bu).data hnq u hu

/-- Reading any other key through a `setEnv` update is unchanged. -/
theorem setEnv_get_ne (env : Env) (key value k : String) (h : k ≠ key) :
    setEnv env key value k = env k := if_neg h

/-- The S3 activation as `maybeS3Cache` performs it in the static-key
branch, made explicit. -/
theorem maybeS3Cache_static_active (fail : SdkFail) (v : Bool) (env : Env)
    (hr : env envVarS3CacheRegion ≠ "")
    (ha : env envVarS3AwsAccessKey ≠ "")
    (hs : env envVarS3AwsSecretAccessKey ≠ "")
    (hf : fail (env envVarS3CacheRegion)
        (.staticKeyPair (env envVarS3AwsAccessKey) (env envVarS3AwsSecretAccessKey)) = none)
    (hb : env envVarS3BucketName ≠ "") :
    maybeS3Cache fail v env = .ok (some (.s3
      { client := s3NewFromConfig
          { region := env envVarS3CacheRegion
            credentials := .staticKeyPair (env envVarS3AwsAccessKey) (env envVarS3AwsSecretAccessKey)
            baseEndpoint := if env envVarS3Endpoint = "" then none else some (env envVarS3Endpoint) }
        bucket := env envVarS3BucketName
        cacheKey := if env envVarS3CacheKey = "" then defaultCacheKey else env envVarS3CacheKey
        verbose := v })) := by
  simp only [maybeS3Cache]
  rw [getAwsConfigFromEnv_static fail env hr ha hs hf]
  simp [hb]

/-- The S3 activation as `maybeS3Cache` performs it for any resolved
credential configuration — static key pair or named profile alike. -/
theorem maybeS3Cache_active (fail : SdkFail) (v : Bool) (env : Env)
    (cfg : AwsConfig)
    (hcfg : getAwsConfigFromEnv fail env = .ok (some cfg))
    (hb : env envVarS3BucketName ≠ "") :
    maybeS3Cache fail v env = .ok (some (.s3
      { client := s3NewFromConfig cfg
        bucket := env envVarS3BucketName
        cacheKey := if env envVarS3CacheKey = "" then defaultCacheKey else env envVarS3CacheKey
        verbose := v })) := by
  simp only [maybeS3Cache]
  rw [hcfg]
  simp [hb]

/-- `getAwsConfigFromEnv` does not read the HTTP server-base signal, so an
update of that signal leaves its result unchanged. -/
theorem getAwsConfigFromEnv_setEnv_http (fail : SdkFail) (env : Env)
    (b : String) :
    getAwsConfigFromEnv fail (setEnv env envVarHttpCacheServerBase b)
      = getAwsConfigFromEnv fail env := by
  simp only [getAwsConfigFromEnv]
  rw [setEnv_get_ne env envVarHttpCacheServerBase b envVarS3CacheRegion (by decide),
    setEnv_get_ne env envVarHttpCacheServerBase b envVarS3AwsAccessKey (by decide),
    setEnv_get_ne env envVarHttpCacheServerBase b envVarS3AwsSecretAccessKey (by decide),
    setEnv_get_ne env envVarHttpCacheServerBase b envVarS3Endpoint (by decide),
    setEnv_get_ne env envVarHttpCacheServerBase b envVarS3AwsCredsProfile (by decide)]

/-- C4: with a valid object-storage configuration — a non-empty bucket
signal and any resolvable credential configuration `cfg`, whether produced
by the static-key-pair or the named-profile branch — `getCache` combines
the local cache with the S3 backend; the HTTP server-base signal is
quantified over every value `b` and the result does not mention it — the
HTTP signal has no effect on the facade. -/
theorem getCache_s3_wins_over_http (fail : SdkFail)
    (userCacheDir : Except String String) (env : Env) (v : Bool)
    (b : String) (dir : String) (cfg : AwsConfig)
    (hcfg : getAwsConfigFromEnv fail env = .ok (some cfg))
    (hb : env envVarS3BucketName ≠ "")
    (hd : getDir userCacheDir env = .ok dir) :
    getCache fail userCacheDir (setEnv env envVarHttpCacheServerBase b) v
      = .ok (.combinedCache (.simpleDiskCache v dir) (.s3
          { client := s3NewFromConfig cfg
            bucket := env envVarS3BucketName
            cacheKey := if env envVarS3CacheKey = "" then defaultCacheKey else env envVarS3CacheKey
            verbose := v }) v) := by
  have hB := setEnv_get_ne env envVarHttpCacheServerBase b envVarS3BucketName (by decide)
  have hK := setEnv_get_ne env envVarHttpCacheServerBase b envVarS3CacheKey (by decide)
  have hD := setEnv_get_ne env envVarHttpCacheServerBase b envVarDiskCacheDir (by decide)
  have hd2 : getDir userCacheDir (setEnv env envVarHttpCacheServerBase b) = .ok dir := by
    simp only [getDir, hD]
    simp only [getDir] at hd
    exact hd
  have hcfg2 : getAwsConfigFromEnv fail (setEnv env envVarHttpCacheServerBase b)
      = .ok (some cfg) := by
    rw [getAwsConfigFromEnv_setEnv_http]
    exact hcfg
  have hm2 : maybeS3Cache fail v (setEnv env envVarHttpCacheServerBase b) = .ok (some (.s3
      { client := s3NewFromConfig cfg
        bucket := env envVarS3BucketName
        cacheKey := if env envVarS3CacheKey = "" then defaultCacheKey else env envVarS3CacheKey
        verbose := v })) := by
    have h := maybeS3Cache_active fail v (setEnv env envVarHttpCacheServerBase b) cfg hcfg2
      (by rw [hB]; exact hb)
    rw [hB, hK] at h
    exact h
  simp only [getCache]
  rw [hd2, hm2]

/-- C4 witness: `envFull` has both the full object-storage configuration
and an HTTP server base; overriding the HTTP signal with a different server
still yields the combined local+S3 facade. -/
theorem getCache_s3_wins_over_http_witness :
    getCache sdkOk (.ok "/c") (setEnv envFull envVarHttpCacheServerBase "http://h2") false
      = .ok (.combinedCache (.simpleDiskCache false "/c/go-cacher") (.s3 s3CacheFull) false) := by
  have h := getCache_s3_wins_over_http sdkOk (.ok "/c") envFull false "http://h2" "/c/go-cacher"
    { region := "r"
      credentials := .staticKeyPair "a" "s"
      baseEndpoint := some "http://e:9000" }
    (by decide) (by decide) rfl
  exact h

/-- C5: for every environment, SDK oracle, user-cache-dir outcome and
verbose setting, `getCache` produces exactly one of: a fatal termination, a
bare local disk cache (verbose unset), the state-logging wrapper around the
local disk cache (verbose set), or a combined cache over the local disk
cache and one remote with the verbose flag passed into it; the logging
wrapper and the combination never compose. -/
theorem getCache_three_shapes (fail : SdkFail)
    (userCacheDir : Except String String) (env : Env) (v : Bool) :
    (∃ f, getCache fail userCacheDir env v = .error f) ∨
    (∃ dir, getCache fail userCacheDir env v = .ok (.simpleDiskCache v dir) ∧ v = false) ∨
    (∃ dir, getCache fail userCacheDir env v
        = .ok (.localCacheStates (.simpleDiskCache v dir)) ∧ v = true) ∨
    (∃ dir remote, getCache fail userCacheDir env v
        = .ok (.combinedCache (.simpleDiskCache v dir) remote v)) := by
  cases hgd : getDir userCacheDir env with
  | error f =>
    refine Or.inl ⟨f, ?_⟩
    simp only [getCache]
    rw [hgd]
  | ok dir =>
    cases hs3 : maybeS3Cache fail v env with
    | error e =>
      refine Or.inl ⟨{ site := .getCache, msg := e }, ?_⟩
      simp only [getCache]
      rw [hgd, hs3]
    | ok remoteS3 =>
      cases remoteS3 with
      | some r =>
        refine Or.inr (Or.inr (Or.inr ⟨dir, r, ?_⟩))
        simp only [getCache]
        rw [hgd, hs3]
      | none =>
        cases hh : maybeHttpCache v env with
        | error e =>
          refine Or.inl ⟨{ site := .getCache, msg := e }, ?_⟩
          simp only [getCache]
          rw [hgd, hs3, hh]
        | ok remoteHttp =>
          cases remoteHttp with
          | some r =>
            refine Or.inr (Or.inr (Or.inr ⟨dir, r, ?_⟩))
            simp only [getCache]
            rw [hgd, hs3, hh]
          | none =>
            cases v with
            | true =>
              refine Or.inr (Or.inr (Or.inl ⟨dir, ?_, rfl⟩))
              simp only [getCache]
              rw [hgd, hs3, hh]
              rfl
            | false =>
              refine Or.inr (Or.inl ⟨dir, ?_, rfl⟩)
              simp only [getCache]
              rw [hgd, hs3, hh]
              rfl

/-- Environment activating the S3 backend with no endpoint override. -/
def envNoOverride : Env := fun k =>
  if k = envVarS3CacheRegion then "r"
  else if k = envVarS3AwsAccessKey then "a"
  else if k = envVarS3AwsSecretAccessKey then "s"
  else if k = envVarS3BucketName then "b"
  else ""

/-- Environment activating the S3 backend with an endpoint override that is
not parseable as a URL (it contains an ASCII control character). -/
def envBadEndpoint : Env := fun k =>
  if k = envVarS3CacheRegion then "r"
  else if k = envVarS3AwsAccessKey then "a"
  else if k = envVarS3AwsSecretAccessKey then "s"
  else if k = envVarS3BucketName then "b"
  else if k = envVarS3Endpoint then "http://x\x00"
  else ""

/-- C6 (divergence witness): at the spec's own scenario — region, keys and
bucket set, no endpoint override — the facade is the combined local+S3
cache whose client has the custom `resolver` installed
(`customEndpointResolverV2 = true`) and its base endpoint nil, rather than
a client left to its default endpoint resolution; and the installed
resolver faults (nil-pointer dereference, the outer `none`) when invoked
with a nil endpoint parameter. -/
theorem s3_no_override_installs_custom_resolver :
    getCache sdkOk (.ok "/c") envNoOverride false
      = .ok (.combinedCache (.simpleDiskCache false "/c/go-cacher") (.s3
          { client :=
              { config :=
                  { region := "r"
                    credentials := .staticKeyPair "a" "s"
                    baseEndpoint := none }
                customEndpointResolverV2 := true }
            bucket := "b"
            cacheKey := "v1"
            verbose := false }) false)
    ∧ resolveEndpoint { endpoint := none, bucket := some "b", region := none } = none :=
  ⟨by decide, rfl⟩

/-- C7 counterexample: with the malformed (unparseable) endpoint override
`"http://x\x00"`, startup construction succeeds — `maybeS3Cache` returns
the S3 backend, not an error — while `url.Parse` rejects the endpoint and
the installed resolver surfaces that error only when it is invoked. -/
theorem malformed_endpoint_construction_succeeds :
    maybeS3Cache sdkOk false envBadEndpoint = .ok (some (.s3
      { client :=
          { config :=
              { region := "r"
                credentials := .staticKeyPair "a" "s"
                baseEndpoint := some "http://x\x00" }
            customEndpointResolverV2 := true }
        bucket := "b"
        cacheKey := "v1"
        verbose := false }))
    ∧ urlParse "http://x\x00" = .error "net/url: invalid control character in URL"
    ∧ resolveEndpoint { endpoint := some "http://x\x00", bucket := some "b", region := none }
        = some (.error "net/url: invalid control character in URL") :=
  ⟨by decide, by decide, by decide⟩

/-- C7 (amended): a malformed base endpoint is not a construction-time
error — `maybeS3Cache` builds the S3 backend without parsing the endpoint,
whatever its form — and the parse failure surfaces as the error of
`ResolveEndpoint` when the resolver is invoked (at first use). -/
theorem malformed_endpoint_error_at_first_use :
    (∀ (ep bu : String) (rg : Option String) (e : String),
      urlParse (ep ++ "/" ++ bu) = .error e →
      resolveEndpoint { endpoint := some ep, bucket := some bu, region := rg }
        = some (.error e)) ∧
    (∀ (fail : SdkFail) (v : Bool) (env : Env),
      env envVarS3CacheRegion ≠ "" →
      env envVarS3AwsAccessKey ≠ "" →
      env envVarS3AwsSecretAccessKey ≠ "" →
      fail (env envVarS3CacheRegion)
        (.staticKeyPair (env envVarS3AwsAccessKey) (env envVarS3AwsSecretAccessKey)) = none →
      env envVarS3BucketName ≠ "" →
      ∃ c, maybeS3Cache fail v env = .ok (some (.s3 c))) := by
  constructor
  · intro ep bu rg e h
    simp [resolveEndpoint, h]
  · intro fail v env hr ha hs hf hb
    exact ⟨_, maybeS3Cache_static_active fail v env hr ha hs hf hb⟩

/-- Every error of `getDir` is the `log.Fatal` inside `getDir`. -/
theorem getDir_error_site (userCacheDir : Except String String) (env : Env)
    (f : Fatal) (h : getDir userCacheDir env = .error f) :
    f.site = .getDir := by
  simp only [getDir] at h
  split at h
  · cases userCacheDir with
    | error e =>
      simp at h
      rw [← h]
    | ok d => simp at h
  · simp at h

/-- Empty environment: no signal set. -/
def envEmpty : Env := fun _ => ""

/-- C9 counterexample: fatal conditions are executed inside the internal
components, not propagated to a top-level handler — an SDK failure
terminates at site `getCache` (the `log.Fatal` at cacher.go line 148), and
a `os.UserCacheDir` failure terminates at site `getDir` (line 179); neither
fatal reaches `main`. -/
theorem internal_components_fatal_counterexample :
    getCache sdkBoom (.ok "/c") envFull false
      = .error { site := .getCache, msg := "boom" }
    ∧ getDir (.error "no cache dir") envEmpty
        = .error { site := .getDir, msg := "no cache dir" }
    ∧ FatalSite.getCache ≠ FatalSite.main
    ∧ FatalSite.getDir ≠ FatalSite.main :=
  ⟨by decide, by decide, by decide, by decide⟩

/-- C9 (amended): the credential resolver, endpoint resolver and
remote-backend selectors do propagate failures as error results, but
`getDir` and `getCache` execute `log.Fatal` themselves — every fatal
condition arising during resolution and composition terminates the process
at site `getDir` or `getCache` and never reaches `main`'s top-level
handler. -/
theorem getCache_fatal_sites (fail : SdkFail)
    (userCacheDir : Except String String) (env : Env) (v : Bool) (f : Fatal)
    (h : getCache fail userCacheDir env v = .error f) :
    f.site = .getDir ∨ f.site = .getCache := by
  simp only [getCache] at h
  cases hgd : getDir userCacheDir env with
  | error f2 =>
    rw [hgd] at h
    simp at h
    exact Or.inl (h ▸ getDir_error_site userCacheDir env f2 hgd)
  | ok dir =>
    rw [hgd] at h
    cases hs3 : maybeS3Cache fail v env with
    | error e =>
      rw [hs3] at h
      simp at h
      rw [← h]
      exact Or.inr rfl
    | ok remoteS3 =>
      rw [hs3] at h
      cases remoteS3 with
      | some r => simp at h
      | none =>
        cases hh : maybeHttpCache v env with
        | error e =>
          rw [hh] at h
          simp at h
          rw [← h]
          exact Or.inr rfl
        | ok remoteHttp =>
          rw [hh] at h
          cases remoteHttp with
          | some r => simp at h
          | none =>
            cases v with
            | true => simp at h
            | false => simp at h

/-- C9 amended witness: the fatal produced by an SDK failure under a full
configuration has site `getCache`. -/
theorem getCache_fatal_sites_witness :
    (({ site := .getCache, msg := "boom" } : Fatal)).site = .getDir ∨
    (({ site := .getCache, msg := "boom" } : Fatal)).site = .getCache :=
  getCache_fatal_sites sdkBoom (.ok "/c") envFull false
    { site := .getCache, msg := "boom" } (by decide)

end GoCacher
